import Mathlib

/-!
Verification of the CoralSwap AMM pricing core against the repository sources.

The in-repository algorithmic code is the off-chain swap output estimation and
the price-impact computation in `src/unnamed/part_000`, and the slippage
minimum computation in `src/examples/provide-liquidity.ts`; those are embedded
directly.  The on-chain pair engine (reserve ledger, dynamic fee engine, TWAP
oracle, liquidity engine) is called through a remote client and is not part of
the sources, so those components are modelled from the specification text, each
marked `Modelled from the spec` in its doc comment.
-/

/-- Embedding of the swap output estimation in `src/unnamed/part_000`
(lines 209-220): the constant-product formula with the fee deducted from the
input leg.  All quantities are non-negative BigInt token amounts in the source
and JS BigInt division on non-negative operands is floor division, i.e. `Nat`
division.  `reserveIn`/`reserveOut` stand for the source's
`reserves.reserve0`/`reserves.reserve1`, `feeBps` for `dynamicFee`. -/
def estimatedOut (amountIn reserveIn reserveOut feeBps : Nat) : Nat :=
  let feeFactor := 10000 - feeBps
  let amountInWithFee := amountIn * feeFactor
  let numerator := amountInWithFee * reserveOut
  let denominator := reserveIn * 10000 + amountInWithFee
  numerator / denominator

/-- The swap output formula written from the spec text of §4.2
(`amountInWithFee = amountIn * (10000 - feeBps)`;
`amountOut = amountInWithFee * reserveOut / (reserveIn * 10000 + amountInWithFee)`,
floor division), to be compared with the source-derived `estimatedOut`. -/
def specSwapAmountOut (amountIn reserveIn reserveOut feeBps : Nat) : Nat :=
  let amountInWithFee := amountIn * (10000 - feeBps)
  amountInWithFee * reserveOut / (reserveIn * 10000 + amountInWithFee)

/-- Embedding of the slippage minimum computation in
`src/examples/provide-liquidity.ts` (line 161):
`amountAMin = (quote.amountA * BigInt(10000 - slippageBps)) / 10000n`, which is
the spec's `mulDiv(amountOut, 10000 - slippageBps, 10000)`. -/
def amountOutMinOf (amountOut slippageBps : Nat) : Nat :=
  amountOut * (10000 - slippageBps) / 10000

/-- Embedding of `calculatePriceImpact` from `src/unnamed/part_000`
(lines 288-299), kept in integer basis points: the source computes the BigInt
`impact` in basis points and only converts it to a floating-point percentage
(`Number(impact) / 100`) for display, which the spec (§9) confines to the
presentation boundary.  JS BigInt division truncates toward zero, which is
`Int.tdiv`. -/
def calculatePriceImpact (amountIn amountOut reserveIn reserveOut : Int) : Int :=
  if reserveIn = 0 ∨ reserveOut = 0 then 0
  else
    let idealOut := (amountIn * reserveOut).tdiv reserveIn
    if idealOut = 0 then 0
    else ((idealOut - amountOut) * 10000).tdiv idealOut

/-- Modelled from the spec: the LP-token estimate of
`LiquidityEngine.quoteAddLiquidity` (§4.5); the liquidity engine is not among
the repository sources (the examples call it through a remote client).  For an
uninitialized pool (`totalSupply = 0`) the estimate is
`floor(sqrt(amountA * amountB))`; for an initialized pool it is
`min(mulDiv(amountA, totalSupply, reserveA), mulDiv(amountB, totalSupply, reserveB))`. -/
def quoteAddLiquidityLPTokens (totalSupply reserveA reserveB amountA amountB : Nat) : Nat :=
  if totalSupply = 0 then Nat.sqrt (amountA * amountB)
  else min (amountA * totalSupply / reserveA) (amountB * totalSupply / reserveB)

/-- Fee state of a pair (§3): the current dynamic fee and its configuration. -/
structure FeeState where
  currentFeeBps : Nat
  feeMin : Nat
  feeMax : Nat
  baselineFee : Nat
  emaAlpha : Nat
deriving Repr, DecidableEq

/-- Modelled from the spec: one `DynamicFeeEngine` update (§4.4).  The exact
EMA blend of the external volatility/utilization signal toward `baselineFee` is
left open by the spec (§9 warns implementers not to guess it), so the update
takes the blended candidate fee as an externally supplied input; the
contracted part — the clamp of the result to `[feeMin, feeMax]` applied after
each blend — is what is modelled. -/
def updateFee (st : FeeState) (blendedFee : Nat) : FeeState :=
  { st with currentFeeBps := min st.feeMax (max st.feeMin blendedFee) }

/-- Fixed-point price scale of the sdk: `src/examples/provide-liquidity.ts`
(lines 146-147) displays quoted prices as `Number(quote.priceAPerB) / 1e14`. -/
def PRICE_SCALE : Nat := 100000000000000

/-- TWAP oracle accumulator state (§3). -/
structure OracleState where
  price0CumulativeLast : Nat
  price1CumulativeLast : Nat
  blockTimestampLast : Nat
deriving Repr, DecidableEq

/-- Modelled from the spec: the `PriceOracle` update run on every
reserve-mutating call, before the new reserves are applied (§4.3); the oracle
is not among the repository sources.  If
`currentTimestamp > blockTimestampLast` each cumulative price accumulates
`spotPrice * elapsed` in fixed point (spot price from the pre-mutation
reserves) and the timestamp advances; otherwise nothing changes. -/
def oracleUpdate (st : OracleState) (reserve0 reserve1 currentTimestamp : Nat) : OracleState :=
  if st.blockTimestampLast < currentTimestamp then
    let elapsed := currentTimestamp - st.blockTimestampLast
    { price0CumulativeLast := st.price0CumulativeLast + reserve1 * PRICE_SCALE / reserve0 * elapsed,
      price1CumulativeLast := st.price1CumulativeLast + reserve0 * PRICE_SCALE / reserve1 * elapsed,
      blockTimestampLast := currentTimestamp }
  else st

/-- Full pair state (§3): reserves, LP supply, oracle accumulator, fee state. -/
structure PairState where
  reserve0 : Nat
  reserve1 : Nat
  totalSupply : Nat
  oracle : OracleState
  fee : FeeState
deriving Repr, DecidableEq

/-- Failure kinds of `applySwap` (§4.2, §7). -/
inductive SwapError where
  | InsufficientInputAmount
  | InsufficientLiquidity
deriving Repr, DecidableEq

/-- Modelled from the spec: `ReserveLedger.applySwap` (§4.2); the reserve
ledger is not among the repository sources.  The empty-input check precedes
the liquidity checks (the specified equivalence between an
`InsufficientInputAmount` failure and `amountIn = 0` forces this order).  The
output is computed by the same constant-product formula the in-repository
estimator uses; on success the reserves move and the oracle (fed the
pre-mutation reserves) and the fee state update in the same atomic transition
(§4.2, §5).  A failure returns no state: per §7 no partial mutation is ever
observable. -/
def applySwap (p : PairState) (amountIn : Nat) (tokenInIsToken0 : Bool)
    (feeBps currentTimestamp blendedFee : Nat) : Except SwapError (Nat × PairState) :=
  if amountIn = 0 then .error .InsufficientInputAmount
  else
    let reserveIn := if tokenInIsToken0 then p.reserve0 else p.reserve1
    let reserveOut := if tokenInIsToken0 then p.reserve1 else p.reserve0
    if reserveOut = 0 then .error .InsufficientLiquidity
    else
      let amountOut := estimatedOut amountIn reserveIn reserveOut feeBps
      if amountOut = 0 then .error .InsufficientLiquidity
      else
        let oracle := oracleUpdate p.oracle p.reserve0 p.reserve1 currentTimestamp
        let fee := updateFee p.fee blendedFee
        if tokenInIsToken0 then
          .ok (amountOut, { p with reserve0 := p.reserve0 + amountIn,
                                   reserve1 := p.reserve1 - amountOut,
                                   oracle := oracle, fee := fee })
        else
          .ok (amountOut, { p with reserve0 := p.reserve0 - amountOut,
                                   reserve1 := p.reserve1 + amountIn,
                                   oracle := oracle, fee := fee })

/-- Observable pair state after an `applySwap` call: under the atomic-commit
contract (§5, §7) a failed call leaves the pair exactly as it was. -/
def applySwapPost (p : PairState) (amountIn : Nat) (tokenInIsToken0 : Bool)
    (feeBps currentTimestamp blendedFee : Nat) : PairState :=
  match applySwap p amountIn tokenInIsToken0 feeBps currentTimestamp blendedFee with
  | .error _ => p
  | .ok (_, q) => q

/-- Claim C1: the swap output the engine computes is exactly the floor of
`amountIn*(10000-feeBps)*reserveOut / (reserveIn*10000 + amountIn*(10000-feeBps))`,
the §4.2 formula; and at reserves `(1_000_000_0000, 1_000_000_0000)` with
`feeBps = 30` and `amountIn = 1_000_000` it equals the exact integer value of
that formula with `amountInWithFee = 1_000_000 * 9970`. -/
theorem swapOutput_matches_spec_formula (amountIn reserveIn reserveOut feeBps : Nat)
    (hrIn : 0 < reserveIn) (hrOut : 0 < reserveOut) (hf : feeBps ≤ 10000)
    (ha : 0 < amountIn) :
    estimatedOut amountIn reserveIn reserveOut feeBps =
      specSwapAmountOut amountIn reserveIn reserveOut feeBps ∧
    estimatedOut 1000000 10000000000 10000000000 30 =
      1000000 * 9970 * 10000000000 / (10000000000 * 10000 + 1000000 * 9970) := by
  constructor
  · rfl
  · rfl

/-- Witness for C1 at concrete inputs. -/
theorem swapOutput_matches_spec_formula_witness :
    0 < 5 ∧ 0 < 7 ∧ 3 ≤ 10000 ∧ 0 < 2 ∧
    estimatedOut 2 5 7 3 = specSwapAmountOut 2 5 7 3 :=
  ⟨by decide, by decide, by decide, by decide,
    (swapOutput_matches_spec_formula 2 5 7 3 (by decide) (by decide) (by decide) (by decide)).1⟩

/-- Claim C3: with `amountOutMin = floor(amountOut * (10000 - slippageBps) / 10000)`
and `slippageBps ≤ 10000`, a quote's minimum never exceeds its output
(`amountOutMin ≤ amountOut`), with equality exactly when `slippageBps = 0`.
A quote's `amountOut` is positive, since quoting fails with
`InsufficientLiquidity` when no positive output exists (§4.6). -/
theorem amountOutMin_le_amountOut (amountOut slippageBps : Nat)
    (hpos : 0 < amountOut) (hs : slippageBps ≤ 10000) :
    amountOutMinOf amountOut slippageBps ≤ amountOut ∧
    (amountOutMinOf amountOut slippageBps = amountOut ↔ slippageBps = 0) := by
  have hmain : ∀ s : Nat, 0 < s → amountOutMinOf amountOut s < amountOut := by
    intro s hspos
    unfold amountOutMinOf
    rw [Nat.div_lt_iff_lt_mul (by norm_num : (0:Nat) < 10000)]
    have hlt : 10000 - s < 10000 := by omega
    calc amountOut * (10000 - s) < amountOut * 10000 :=
          mul_lt_mul_of_pos_left hlt hpos
      _ = amountOut * 10000 := rfl
  have hle : amountOutMinOf amountOut slippageBps ≤ amountOut := by
    unfold amountOutMinOf
    calc amountOut * (10000 - slippageBps) / 10000
        ≤ amountOut * 10000 / 10000 := by
          exact Nat.div_le_div_right (mul_le_mul_left' (by omega) amountOut)
      _ = amountOut := Nat.mul_div_cancel amountOut (by norm_num)
  refine ⟨hle, ?_, ?_⟩
  · intro heq
    by_contra hs0
    have := hmain slippageBps (Nat.pos_of_ne_zero hs0)
    omega
  · intro hz
    subst hz
    unfold amountOutMinOf
    rw [Nat.sub_zero]
    exact Nat.mul_div_cancel amountOut (by norm_num)

/-- Witness for C3 at concrete inputs. -/
theorem amountOutMin_le_amountOut_witness :
    0 < 1000 ∧ 50 ≤ 10000 ∧
    (amountOutMinOf 1000 50 ≤ 1000 ∧ (amountOutMinOf 1000 50 = 1000 ↔ 50 = 0)) :=
  ⟨by decide, by decide, amountOutMin_le_amountOut 1000 50 (by decide) (by decide)⟩

/-- Claim C5: on an uninitialized pool (`totalSupply = 0`) the LP-token
estimate of `quoteAddLiquidity` is the integer square root floor of
`amountA * amountB` (characterized by `lp^2 ≤ amountA*amountB < (lp+1)^2`),
and a first deposit of `(1_000_0000, 4_000_0000)` yields exactly
`20_000_000` estimated LP tokens. -/
theorem firstDeposit_lp_is_floor_sqrt :
    (∀ reserveA reserveB amountA amountB : Nat,
      quoteAddLiquidityLPTokens 0 reserveA reserveB amountA amountB *
          quoteAddLiquidityLPTokens 0 reserveA reserveB amountA amountB ≤
        amountA * amountB ∧
      amountA * amountB <
        (quoteAddLiquidityLPTokens 0 reserveA reserveB amountA amountB + 1) *
          (quoteAddLiquidityLPTokens 0 reserveA reserveB amountA amountB + 1)) ∧
    quoteAddLiquidityLPTokens 0 0 0 10000000 40000000 = 20000000 := by
  constructor
  · intro reserveA reserveB amountA amountB
    have hunfold : quoteAddLiquidityLPTokens 0 reserveA reserveB amountA amountB =
        Nat.sqrt (amountA * amountB) := rfl
    rw [hunfold]
    exact ⟨Nat.sqrt_le (amountA * amountB), Nat.lt_succ_sqrt (amountA * amountB)⟩
  · have hunfold : quoteAddLiquidityLPTokens 0 0 0 10000000 40000000 =
        Nat.sqrt (10000000 * 40000000) := by
      unfold quoteAddLiquidityLPTokens
      simp
    rw [hunfold]
    have h : (10000000 : Nat) * 40000000 = 20000000 ^ 2 := by norm_num
    rw [h, Nat.sqrt_eq']

/-- The estimated swap output never exceeds the output reserve. -/
lemma estimatedOut_le_reserveOut (amountIn reserveIn reserveOut feeBps : Nat)
    (hrIn : 0 < reserveIn) :
    estimatedOut amountIn reserveIn reserveOut feeBps ≤ reserveOut := by
  have hd : 0 < reserveIn * 10000 + amountIn * (10000 - feeBps) := by
    have hp : 0 < reserveIn * 10000 := Nat.mul_pos hrIn (by norm_num)
    omega
  show amountIn * (10000 - feeBps) * reserveOut /
      (reserveIn * 10000 + amountIn * (10000 - feeBps)) ≤ reserveOut
  calc amountIn * (10000 - feeBps) * reserveOut /
        (reserveIn * 10000 + amountIn * (10000 - feeBps))
      ≤ (reserveIn * 10000 + amountIn * (10000 - feeBps)) * reserveOut /
        (reserveIn * 10000 + amountIn * (10000 - feeBps)) :=
        Nat.div_le_div_right (mul_le_mul_right' (Nat.le_add_left _ _) reserveOut)
    _ = reserveOut := Nat.mul_div_cancel_left reserveOut hd

/-- Key product bound behind the constant-product invariant:
`amountOut * (reserveIn + amountIn) ≤ amountIn * reserveOut`. -/
lemma estimatedOut_mul_le (amountIn reserveIn reserveOut feeBps : Nat)
    (hrIn : 0 < reserveIn) (hf : feeBps ≤ 10000) :
    estimatedOut amountIn reserveIn reserveOut feeBps * (reserveIn + amountIn) ≤
      amountIn * reserveOut := by
  have h2 : estimatedOut amountIn reserveIn reserveOut feeBps ≤ reserveOut :=
    estimatedOut_le_reserveOut amountIn reserveIn reserveOut feeBps hrIn
  have h1 : estimatedOut amountIn reserveIn reserveOut feeBps *
      (reserveIn * 10000 + amountIn * (10000 - feeBps)) ≤
      amountIn * (10000 - feeBps) * reserveOut := Nat.div_mul_le_self _ _
  generalize hE : estimatedOut amountIn reserveIn reserveOut feeBps = e at h1 h2 ⊢
  obtain ⟨g, hg⟩ : ∃ g, 10000 - feeBps = g := ⟨_, rfl⟩
  rw [hg] at h1
  have h10 : (10000 : Nat) = g + feeBps := by omega
  have h3 : e * (reserveIn + amountIn) * 10000 ≤ amountIn * reserveOut * 10000 := by
    have haf : e * (amountIn * feeBps) ≤ reserveOut * (amountIn * feeBps) :=
      mul_le_mul_right' h2 _
    calc e * (reserveIn + amountIn) * 10000
        = e * (reserveIn * 10000 + amountIn * g) + e * (amountIn * feeBps) := by
          rw [h10]; ring
      _ ≤ amountIn * g * reserveOut + reserveOut * (amountIn * feeBps) :=
          Nat.add_le_add h1 haf
      _ = amountIn * reserveOut * 10000 := by rw [h10]; ring
  exact Nat.le_of_mul_le_mul_right h3 (by norm_num)

/-- The constant-product estimate never exceeds the ideal (no-impact) output. -/
lemma estimatedOut_le_ideal (amountIn reserveIn reserveOut feeBps : Nat)
    (hrIn : 0 < reserveIn) (hf : feeBps ≤ 10000) :
    estimatedOut amountIn reserveIn reserveOut feeBps ≤ amountIn * reserveOut / reserveIn := by
  rw [Nat.le_div_iff_mul_le hrIn]
  calc estimatedOut amountIn reserveIn reserveOut feeBps * reserveIn
      ≤ estimatedOut amountIn reserveIn reserveOut feeBps * (reserveIn + amountIn) :=
        mul_le_mul_left' (Nat.le_add_right _ _) _
    _ ≤ amountIn * reserveOut :=
        estimatedOut_mul_le amountIn reserveIn reserveOut feeBps hrIn hf

/-- Claim C2: for every swap through the §4.2 constant-product formula — with
positive reserves, positive input and `feeBps ≤ 10000` — the post-state product
satisfies `(reserveIn + amountIn) * (reserveOut - amountOut) ≥ reserveIn * reserveOut`. -/
theorem swap_product_nondecreasing (reserveIn reserveOut amountIn feeBps : Nat)
    (hrIn : 0 < reserveIn) (hrOut : 0 < reserveOut) (ha : 0 < amountIn)
    (hf : feeBps ≤ 10000) :
    reserveIn * reserveOut ≤
      (reserveIn + amountIn) *
        (reserveOut - estimatedOut amountIn reserveIn reserveOut feeBps) := by
  have h2 : estimatedOut amountIn reserveIn reserveOut feeBps ≤ reserveOut :=
    estimatedOut_le_reserveOut amountIn reserveIn reserveOut feeBps hrIn
  have hkey : estimatedOut amountIn reserveIn reserveOut feeBps * (reserveIn + amountIn) ≤
      amountIn * reserveOut :=
    estimatedOut_mul_le amountIn reserveIn reserveOut feeBps hrIn hf
  generalize hE : estimatedOut amountIn reserveIn reserveOut feeBps = e at h2 hkey ⊢
  zify [h2] at hkey ⊢
  nlinarith [hkey]

/-- Witness for C2 at concrete inputs. -/
theorem swap_product_nondecreasing_witness :
    0 < 1000 ∧ 0 < 2000 ∧ 0 < 30 ∧ 30 ≤ 10000 ∧
    1000 * 2000 ≤ (1000 + 30) * (2000 - estimatedOut 30 1000 2000 30) :=
  ⟨by decide, by decide, by decide, by decide,
    swap_product_nondecreasing 1000 2000 30 30 (by decide) (by decide) (by decide) (by decide)⟩

/-- Characterization of the embedded `calculatePriceImpact` on `Nat`-valued
(token-amount) inputs: it returns 0 when a reserve is zero and otherwise the
bare formula `((idealOut - amountOut) * 10000) / idealOut` with
`idealOut = floor(amountIn * reserveOut / reserveIn)` (the source's extra
`idealOut = 0` guard changes nothing, since division by zero is zero). -/
lemma calculatePriceImpact_eq (amountIn amountOut reserveIn reserveOut : Nat) :
    calculatePriceImpact (amountIn : Int) (amountOut : Int) (reserveIn : Int) (reserveOut : Int) =
      if reserveIn = 0 ∨ reserveOut = 0 then 0
      else Int.tdiv ((((amountIn * reserveOut / reserveIn : Nat) : Int) - (amountOut : Int)) * 10000)
        ((amountIn * reserveOut / reserveIn : Nat) : Int) := by
  simp only [calculatePriceImpact]
  have hid : ((amountIn : Int) * (reserveOut : Int)).tdiv (reserveIn : Int) =
      ((amountIn * reserveOut / reserveIn : Nat) : Int) := by
    rw [Int.ofNat_tdiv]
    norm_cast
  by_cases hz : reserveIn = 0 ∨ reserveOut = 0
  · have hz' : (reserveIn : Int) = 0 ∨ (reserveOut : Int) = 0 := by
      rcases hz with h | h
      · exact Or.inl (by exact_mod_cast h)
      · exact Or.inr (by exact_mod_cast h)
    rw [if_pos hz', if_pos hz]
  · have hz' : ¬((reserveIn : Int) = 0 ∨ (reserveOut : Int) = 0) := by
      push_neg at hz ⊢
      exact ⟨by exact_mod_cast hz.1, by exact_mod_cast hz.2⟩
    rw [if_neg hz', if_neg hz, hid]
    by_cases hI : ((amountIn * reserveOut / reserveIn : Nat) : Int) = 0
    · rw [if_pos hI, hI, Int.tdiv_zero]
    · rw [if_neg hI]

/-- For a truncated quotient `(i - e) * 10000 / i` of naturals, the result is
at most 10000. -/
lemma sub_mul_div_le_ten_thousand (i e : Nat) : (i - e) * 10000 / i ≤ 10000 := by
  rcases Nat.eq_zero_or_pos i with hi | hi
  · simp [hi]
  · calc (i - e) * 10000 / i ≤ i * 10000 / i :=
        Nat.div_le_div_right (mul_le_mul_right' (Nat.sub_le i e) 10000)
      _ = 10000 := Nat.mul_div_cancel_left 10000 hi

/-- On `Nat` inputs whose `amountOut` does not exceed the ideal output, the
price impact equals a `Nat` quotient, hence sits between 0 and 10000. -/
lemma calculatePriceImpact_bounds (amountIn amountOut reserveIn reserveOut : Nat)
    (hrIn : reserveIn ≠ 0) (hrOut : reserveOut ≠ 0)
    (hout : amountOut ≤ amountIn * reserveOut / reserveIn) :
    0 ≤ calculatePriceImpact (amountIn : Int) (amountOut : Int) (reserveIn : Int) (reserveOut : Int) ∧
    calculatePriceImpact (amountIn : Int) (amountOut : Int) (reserveIn : Int) (reserveOut : Int) ≤
      10000 := by
  rw [calculatePriceImpact_eq, if_neg (by tauto)]
  have hsub : ((amountIn * reserveOut / reserveIn : Nat) : Int) - (amountOut : Int) =
      (((amountIn * reserveOut / reserveIn) - amountOut : Nat) : Int) :=
    (Nat.cast_sub hout).symm
  rw [hsub]
  have hmul : ((((amountIn * reserveOut / reserveIn) - amountOut : Nat) : Int) * 10000) =
      ((((amountIn * reserveOut / reserveIn) - amountOut) * 10000 : Nat) : Int) := by
    push_cast
    ring
  rw [hmul, ← Int.ofNat_tdiv]
  constructor
  · exact_mod_cast Nat.zero_le _
  · exact_mod_cast sub_mul_div_le_ten_thousand (amountIn * reserveOut / reserveIn) amountOut

/-- Claim C4: on every quote request the embedded `calculatePriceImpact`
returns exactly `((idealOut - amountOut) * 10000) / idealOut` with
`idealOut = floor(amountIn * reserveOut / reserveIn)`, and returns zero
whenever either reserve is zero. -/
theorem priceImpact_formula (amountIn amountOut reserveIn reserveOut : Nat) :
    calculatePriceImpact (amountIn : Int) (amountOut : Int) (reserveIn : Int) (reserveOut : Int) =
      if reserveIn = 0 ∨ reserveOut = 0 then 0
      else Int.tdiv ((((amountIn * reserveOut / reserveIn : Nat) : Int) - (amountOut : Int)) * 10000)
        ((amountIn * reserveOut / reserveIn : Nat) : Int) :=
  calculatePriceImpact_eq amountIn amountOut reserveIn reserveOut

/-- Claim C9: `calculatePriceImpact` reports exactly zero whenever the ideal
output `floor(amountIn * reserveOut / reserveIn)` is zero — in particular for
every trade small enough that `amountIn * reserveOut < reserveIn`, even with
both reserves strictly positive. -/
theorem priceImpact_zero_when_ideal_zero (amountIn amountOut reserveIn reserveOut : Nat)
    (hrIn : 0 < reserveIn) (hrOut : 0 < reserveOut) :
    (amountIn * reserveOut < reserveIn → amountIn * reserveOut / reserveIn = 0) ∧
    (amountIn * reserveOut / reserveIn = 0 →
      calculatePriceImpact (amountIn : Int) (amountOut : Int) (reserveIn : Int) (reserveOut : Int) = 0) := by
  constructor
  · intro h
    exact Nat.div_eq_of_lt h
  · intro hI
    rw [calculatePriceImpact_eq, if_neg (by omega), hI]
    simp [Int.tdiv_zero]

/-- Witness for C9 at concrete inputs. -/
theorem priceImpact_zero_when_ideal_zero_witness :
    0 < 10 ∧ 0 < 3 ∧ (1 * 3 / 10 = 0) ∧
    calculatePriceImpact ((1 : Nat) : Int) ((5 : Nat) : Int) ((10 : Nat) : Int) ((3 : Nat) : Int) = 0 :=
  ⟨by decide, by decide, by decide,
    (priceImpact_zero_when_ideal_zero 1 5 10 3 (by decide) (by decide)).2 (by decide)⟩

/-- Claim C10: for positive reserves, positive input and `feeBps ≤ 10000`, the
constant-product estimate never exceeds the ideal output
`floor(amountIn * reserveOut / reserveIn)`, and consequently the price impact
computed from that estimate is non-negative and at most 10000 basis points
(i.e. at most 100 in the percent units the source displays). -/
theorem estimate_le_ideal_and_impact_bounds (amountIn reserveIn reserveOut feeBps : Nat)
    (hrIn : 0 < reserveIn) (hrOut : 0 < reserveOut) (ha : 0 < amountIn)
    (hf : feeBps ≤ 10000) :
    estimatedOut amountIn reserveIn reserveOut feeBps ≤ amountIn * reserveOut / reserveIn ∧
    0 ≤ calculatePriceImpact (amountIn : Int)
        ((estimatedOut amountIn reserveIn reserveOut feeBps : Nat) : Int)
        (reserveIn : Int) (reserveOut : Int) ∧
    calculatePriceImpact (amountIn : Int)
        ((estimatedOut amountIn reserveIn reserveOut feeBps : Nat) : Int)
        (reserveIn : Int) (reserveOut : Int) ≤ 10000 := by
  have hle := estimatedOut_le_ideal amountIn reserveIn reserveOut feeBps hrIn hf
  exact ⟨hle,
    calculatePriceImpact_bounds amountIn (estimatedOut amountIn reserveIn reserveOut feeBps)
      reserveIn reserveOut (by omega) (by omega) hle⟩

/-- Witness for C10 at concrete inputs. -/
theorem estimate_le_ideal_and_impact_bounds_witness :
    0 < 1000 ∧ 0 < 2000 ∧ 0 < 500 ∧ 30 ≤ 10000 ∧
    (estimatedOut 500 1000 2000 30 ≤ 500 * 2000 / 1000 ∧
      0 ≤ calculatePriceImpact ((500 : Nat) : Int)
          ((estimatedOut 500 1000 2000 30 : Nat) : Int) ((1000 : Nat) : Int) ((2000 : Nat) : Int) ∧
      calculatePriceImpact ((500 : Nat) : Int)
          ((estimatedOut 500 1000 2000 30 : Nat) : Int) ((1000 : Nat) : Int) ((2000 : Nat) : Int) ≤
        10000) :=
  ⟨by decide, by decide, by decide, by decide,
    estimate_le_ideal_and_impact_bounds 500 1000 2000 30 (by decide) (by decide) (by decide)
      (by decide)⟩

/-- Fee updates never touch the configured lower bound. -/
lemma foldl_updateFee_feeMin (st : FeeState) (l : List Nat) :
    (l.foldl updateFee st).feeMin = st.feeMin := by
  induction l generalizing st with
  | nil => rfl
  | cons b t ih => exact ih (updateFee st b)

/-- Fee updates never touch the configured upper bound. -/
lemma foldl_updateFee_feeMax (st : FeeState) (l : List Nat) :
    (l.foldl updateFee st).feeMax = st.feeMax := by
  induction l generalizing st with
  | nil => rfl
  | cons b t ih => exact ih (updateFee st b)

/-- Claim C6: from any fee state with a valid configuration
(`feeMin ≤ feeMax`), after every non-empty sequence of `DynamicFeeEngine`
updates — whatever the blended EMA signal values, however extreme — the
current fee stays within `[feeMin, feeMax]`, because the clamp is applied
after each blend. -/
theorem fee_clamp_invariant (st : FeeState) (l : List Nat)
    (hcfg : st.feeMin ≤ st.feeMax) (hne : l ≠ []) :
    st.feeMin ≤ (l.foldl updateFee st).currentFeeBps ∧
    (l.foldl updateFee st).currentFeeBps ≤ st.feeMax := by
  rcases List.eq_nil_or_concat l with rfl | ⟨l2, b, rfl⟩
  · exact absurd rfl hne
  · rw [List.concat_eq_append, List.foldl_append]
    simp only [List.foldl_cons, List.foldl_nil]
    have hmin : (l2.foldl updateFee st).feeMin = st.feeMin := foldl_updateFee_feeMin st l2
    have hmax : (l2.foldl updateFee st).feeMax = st.feeMax := foldl_updateFee_feeMax st l2
    constructor
    · show st.feeMin ≤ min (l2.foldl updateFee st).feeMax (max (l2.foldl updateFee st).feeMin b)
      rw [hmin, hmax]
      exact le_min hcfg (le_max_left _ _)
    · show min (l2.foldl updateFee st).feeMax (max (l2.foldl updateFee st).feeMin b) ≤ st.feeMax
      rw [hmax]
      exact min_le_left _ _

/-- Witness for C6 at a concrete state and an extreme signal sequence. -/
theorem fee_clamp_invariant_witness :
    (10 : Nat) ≤ 100 ∧ ([1000000, 0] : List Nat) ≠ [] ∧
    ((10 : Nat) ≤ (([1000000, 0] : List Nat).foldl updateFee ⟨50, 10, 100, 30, 1⟩).currentFeeBps ∧
      (([1000000, 0] : List Nat).foldl updateFee ⟨50, 10, 100, 30, 1⟩).currentFeeBps ≤ 100) :=
  ⟨by decide, by decide,
    fee_clamp_invariant ⟨50, 10, 100, 30, 1⟩ [1000000, 0] (by decide) (by decide)⟩

/-- One oracle update never moves the last-update timestamp backwards. -/
lemma oracleUpdate_timestamp_le (st : OracleState) (r0 r1 t : Nat) :
    st.blockTimestampLast ≤ (oracleUpdate st r0 r1 t).blockTimestampLast := by
  unfold oracleUpdate
  split
  · next h => exact Nat.le_of_lt h
  · exact le_refl _

/-- Claim C7: across every sequence of reserve-mutating calls the oracle's
`blockTimestampLast` is non-decreasing, and a mutation whose timestamp does
not exceed `blockTimestampLast` (in particular a second mutation at the same
timestamp) leaves the whole oracle state — both cumulative price fields
included — unchanged, so accumulation happens exactly once per distinct
observed timestamp, only when `currentTimestamp > blockTimestampLast`. -/
theorem oracle_timestamp_monotone_and_idempotent :
    (∀ (st : OracleState) (calls : List (Nat × Nat × Nat)),
      st.blockTimestampLast ≤
        (calls.foldl (fun s c => oracleUpdate s c.1 c.2.1 c.2.2) st).blockTimestampLast) ∧
    (∀ (st : OracleState) (r0 r1 t : Nat), t ≤ st.blockTimestampLast →
      oracleUpdate st r0 r1 t = st) := by
  constructor
  · intro st calls
    induction calls generalizing st with
    | nil => exact le_refl _
    | cons c rest ih =>
      simp only [List.foldl_cons]
      exact le_trans (oracleUpdate_timestamp_le st c.1 c.2.1 c.2.2) (ih _)
  · intro st r0 r1 t ht
    unfold oracleUpdate
    rw [if_neg (by omega)]

/-- Witness for C7: a second mutation at the very timestamp already recorded
changes nothing. -/
theorem oracle_timestamp_monotone_and_idempotent_witness :
    (5 : Nat) ≤ (⟨11, 22, 5⟩ : OracleState).blockTimestampLast ∧
    oracleUpdate ⟨11, 22, 5⟩ 1000 2000 5 = (⟨11, 22, 5⟩ : OracleState) :=
  ⟨by decide, oracle_timestamp_monotone_and_idempotent.2 ⟨11, 22, 5⟩ 1000 2000 5 (by decide)⟩

/-- Claim C8: `applySwap` fails with `InsufficientInputAmount` exactly when
`amountIn = 0`; for a non-zero input it fails with `InsufficientLiquidity`
whenever the output reserve is zero or the computed output is zero; and every
failure leaves the observable pair state (reserves, supply, oracle, fee state)
unchanged. -/
theorem applySwap_error_conditions (p : PairState) (amountIn : Nat) (d : Bool)
    (feeBps currentTimestamp blendedFee : Nat) :
    (applySwap p amountIn d feeBps currentTimestamp blendedFee =
        Except.error SwapError.InsufficientInputAmount ↔ amountIn = 0) ∧
    (amountIn ≠ 0 →
      ((if d then p.reserve1 else p.reserve0) = 0 ∨
        estimatedOut amountIn (if d then p.reserve0 else p.reserve1)
          (if d then p.reserve1 else p.reserve0) feeBps = 0) →
      applySwap p amountIn d feeBps currentTimestamp blendedFee =
        Except.error SwapError.InsufficientLiquidity) ∧
    (∀ e, applySwap p amountIn d feeBps currentTimestamp blendedFee = Except.error e →
      applySwapPost p amountIn d feeBps currentTimestamp blendedFee = p) := by
  refine ⟨⟨?_, ?_⟩, ?_, ?_⟩
  · intro h
    by_contra hne
    by_cases hro : (if d then p.reserve1 else p.reserve0) = 0
    · simp [applySwap, hne, hro] at h
    · by_cases hout : estimatedOut amountIn (if d then p.reserve0 else p.reserve1)
          (if d then p.reserve1 else p.reserve0) feeBps = 0
      · simp [applySwap, hne, hro, hout] at h
      · cases d <;> simp_all [applySwap]
  · intro h0
    simp [applySwap, h0]
  · intro hne hor
    simp only [applySwap, if_neg hne]
    by_cases hro : (if d then p.reserve1 else p.reserve0) = 0
    · rw [if_pos hro]
    · rw [if_neg hro]
      have hout : estimatedOut amountIn (if d then p.reserve0 else p.reserve1)
          (if d then p.reserve1 else p.reserve0) feeBps = 0 := by tauto
      rw [if_pos hout]
  · intro e he
    unfold applySwapPost
    rw [he]

/-- Witness for C8: a zero-input swap fails with `InsufficientInputAmount` and
the pair state is left untouched. -/
theorem applySwap_error_conditions_witness :
    applySwap ⟨5, 7, 3, ⟨0, 0, 0⟩, ⟨30, 10, 100, 30, 1⟩⟩ 0 true 30 9 40 =
      Except.error SwapError.InsufficientInputAmount ∧
    applySwapPost ⟨5, 7, 3, ⟨0, 0, 0⟩, ⟨30, 10, 100, 30, 1⟩⟩ 0 true 30 9 40 =
      (⟨5, 7, 3, ⟨0, 0, 0⟩, ⟨30, 10, 100, 30, 1⟩⟩ : PairState) :=
  ⟨(applySwap_error_conditions ⟨5, 7, 3, ⟨0, 0, 0⟩, ⟨30, 10, 100, 30, 1⟩⟩ 0 true 30 9 40).1.mpr rfl,
    (applySwap_error_conditions ⟨5, 7, 3, ⟨0, 0, 0⟩, ⟨30, 10, 100, 30, 1⟩⟩ 0 true 30 9 40).2.2
      SwapError.InsufficientInputAmount
      ((applySwap_error_conditions ⟨5, 7, 3, ⟨0, 0, 0⟩, ⟨30, 10, 100, 30, 1⟩⟩ 0 true 30 9
        40).1.mpr rfl)⟩
